import Mathlib

/-!
Verification of the 2d-perspective drawing page (src/pages/index.tsx).

The page keeps two pieces of state: a `perspective` offset pair and a
`strokeHistory` list of points. Event handlers mutate this state and issue
imperative draw commands on a canvas 2d context; a reactive effect redraws
the full path whenever the state changes. JavaScript numbers are embedded as
rationals; the draw commands issued on the context are recorded as an
explicit trace.
-/

namespace TwoDPerspective

/-- A 2D point (JS numbers embedded as rationals). -/
abbrev Point := ℚ × ℚ

/-- `const CANVAS_WIDTH: number = 800;` -/
def CANVAS_WIDTH : ℚ := 800

/-- `const CANVAS_HEIGHT: number = 600;` -/
def CANVAS_HEIGHT : ℚ := 600

/-- One draw command issued on the canvas 2d context. -/
inductive DrawCmd where
  | clearRect (x y w h : ℚ)
  | beginPath
  | moveTo (p : Point)
  | lineTo (p : Point)
  | strokePath
deriving DecidableEq, Repr

/-- The component state of `Home`: `perspective` (initially `[0, 0]`) and
`strokeHistory` (initially `[]`). -/
structure HomeState where
  perspective : Point
  strokeHistory : List Point
deriving DecidableEq, Repr

/-- Availability of the external canvas and its 2d context, tested by the
defensive `if (!canvas) return` / `if (!context) return` guards. -/
inductive Surface where
  | missingCanvas
  | missingContext
  | ready
deriving DecidableEq, Repr

/-- The anchor point of the path:
`(CANVAS_WIDTH / 2 + perspective[0], CANVAS_HEIGHT / 2 + perspective[1])`. -/
def anchor (perspective : Point) : Point :=
  (CANVAS_WIDTH / 2 + perspective.1, CANVAS_HEIGHT / 2 + perspective.2)

/-- The reactive render effect (`useEffect`, lines 16-34): clear the surface,
begin a path, move the pen to the anchor, then for each stroke in
`strokeHistory` in order, `lineTo` it and stroke. -/
def renderEffect (perspective : Point) (strokeHistory : List Point) : List DrawCmd :=
  DrawCmd.clearRect 0 0 CANVAS_WIDTH CANVAS_HEIGHT ::
  DrawCmd.beginPath ::
  DrawCmd.moveTo (anchor perspective) ::
  (strokeHistory.map (fun stroke => [DrawCmd.lineTo stroke, DrawCmd.strokePath])).flatten

/-- Canvas path semantics: the pen position threads through the command list;
`moveTo` repositions the pen without drawing, `lineTo` draws a segment from
the current pen position to its argument and advances the pen (with no pen
yet, `lineTo` only positions it, as the canvas API does on an empty path). -/
def pathSegments : Option Point → List DrawCmd → List (Point × Point)
  | _, [] => []
  | _, DrawCmd.moveTo p :: rest => pathSegments (some p) rest
  | some pen, DrawCmd.lineTo p :: rest => (pen, p) :: pathSegments (some p) rest
  | none, DrawCmd.lineTo p :: rest => pathSegments (some p) rest
  | pen, _ :: rest => pathSegments pen rest

/-- The polyline from a pen position through a list of points in order. -/
def chainSegments : Point → List Point → List (Point × Point)
  | _, [] => []
  | pen, p :: rest => (pen, p) :: chainSegments p rest

lemma pathSegments_lineCmds (pen : Point) (history : List Point) :
    pathSegments (some pen)
      ((history.map (fun stroke => [DrawCmd.lineTo stroke, DrawCmd.strokePath])).flatten)
      = chainSegments pen history := by
  induction history generalizing pen with
  | nil => rfl
  | cons p rest ih =>
      simp only [List.map_cons, List.flatten, List.cons_append, List.nil_append]
      simp only [pathSegments, chainSegments, ih]

/-- C1: For every offset pair and every stroke history, the render effect is a
pure deterministic function of that state: its trace starts by clearing the
surface, its path anchors the pen (without drawing) at
`(CANVAS_WIDTH/2 + offset.x, CANVAS_HEIGHT/2 + offset.y)` and then draws one
straight segment per history point in insertion order, each from the current
pen position; for Offset = (10, -5) and history [(50,50), (100,120)] the path
is (410, 295) → (50,50) → (100,120). -/
theorem renderEffect_path (perspective : Point) (strokeHistory : List Point) :
    (renderEffect perspective strokeHistory).head?
        = some (DrawCmd.clearRect 0 0 CANVAS_WIDTH CANVAS_HEIGHT)
    ∧ pathSegments none (renderEffect perspective strokeHistory)
        = chainSegments
            (CANVAS_WIDTH / 2 + perspective.1, CANVAS_HEIGHT / 2 + perspective.2)
            strokeHistory
    ∧ pathSegments none (renderEffect (10, -5) [(50, 50), (100, 120)])
        = [(((410 : ℚ), (295 : ℚ)), ((50 : ℚ), (50 : ℚ))),
           (((50 : ℚ), (50 : ℚ)), ((100 : ℚ), (120 : ℚ)))] := by
  refine ⟨rfl, ?_, ?_⟩
  · simp only [renderEffect, pathSegments, anchor]
    exact pathSegments_lineCmds _ _
  · simp only [renderEffect, pathSegments, anchor, List.map_cons, List.map_nil,
      List.flatten, List.cons_append, List.nil_append, chainSegments]
    norm_num [pathSegments, CANVAS_WIDTH, CANVAS_HEIGHT]

/-- `handlePerspectiveChange` (lines 40-48), state part: reads the input's
`name` and `value`; index 0 when `name === "perspectiveX"`, else index 1;
writes `Number(value)` at that index of a copy of the previous pair. Note the
source has no canvas/context guard here. -/
def handlePerspectiveChange (name : String) (value : ℚ) (prev : Point) : Point :=
  if name = "perspectiveX" then (value, prev.2) else (prev.1, value)

/-- `handlePerspectiveChange` as a full operation on the component: updates
`perspective` via `setPerspective` and issues no draw commands; the source
performs no surface-availability check before doing so. -/
def runPerspectiveChange (env : Surface) (name : String) (value : ℚ)
    (s : HomeState) : List DrawCmd × HomeState :=
  match env with
  | _ => ([], { s with perspective := handlePerspectiveChange name value s.perspective })

/-- `handleMouseDown` (lines 55-70): after the canvas/context guards, computes
`x = clientX - rect.left`, `y = clientY - rect.top`, draws `lineTo(x, y)` +
`stroke()`, and appends `[x, y]` to the stroke history. -/
def runMouseDown (env : Surface) (clientX clientY rectLeft rectTop : ℚ)
    (s : HomeState) : List DrawCmd × HomeState :=
  match env with
  | Surface.missingCanvas => ([], s)
  | Surface.missingContext => ([], s)
  | Surface.ready =>
      ([DrawCmd.lineTo (clientX - rectLeft, clientY - rectTop), DrawCmd.strokePath],
       { s with strokeHistory :=
           s.strokeHistory ++ [(clientX - rectLeft, clientY - rectTop)] })

/-- `handleClearCanvas` (lines 76-90): after the guards, clears the surface,
begins a path, moves the pen to the anchor, and sets the stroke history to
`[]`. -/
def runClearCanvas (env : Surface) (s : HomeState) : List DrawCmd × HomeState :=
  match env with
  | Surface.missingCanvas => ([], s)
  | Surface.missingContext => ([], s)
  | Surface.ready =>
      ([DrawCmd.clearRect 0 0 CANVAS_WIDTH CANVAS_HEIGHT,
        DrawCmd.beginPath,
        DrawCmd.moveTo (anchor s.perspective)],
       { s with strokeHistory := [] })

/-- `handleUndoStroke` (lines 96-118): after the guards, clears the surface,
begins a path, moves the pen to the anchor, copies the stroke history, pops
its last element (a no-op on an empty array), stores the popped copy, and
replays each remaining stroke with `lineTo` + `stroke()`. -/
def runUndoStroke (env : Surface) (s : HomeState) : List DrawCmd × HomeState :=
  match env with
  | Surface.missingCanvas => ([], s)
  | Surface.missingContext => ([], s)
  | Surface.ready =>
      (DrawCmd.clearRect 0 0 CANVAS_WIDTH CANVAS_HEIGHT ::
       DrawCmd.beginPath ::
       DrawCmd.moveTo (anchor s.perspective) ::
       (s.strokeHistory.dropLast.map
         (fun stroke => [DrawCmd.lineTo stroke, DrawCmd.strokePath])).flatten,
       { s with strokeHistory := s.strokeHistory.dropLast })

/-- `handleSaveImage` (lines 120-128): after the canvas guard (there is no
context guard: the 2d context is not used), builds a download link named
`perspective-N.png` with `N = Math.floor(Math.random() * 1000)` and clicks
it; the result records the triggered download filename (`none` when the
canvas is missing). The component state is not touched. -/
def runSaveImage (env : Surface) (rand : ℚ) (s : HomeState) :
    Option String × HomeState :=
  match env with
  | Surface.missingCanvas => (none, s)
  | _ => (some (String.append "perspective-"
            (String.append (toString ⌊rand * 1000⌋) ".png")), s)

/-- `handleDrawRandomly` (lines 130-144): after the guards, computes
`x = Math.floor(rx * CANVAS_WIDTH)` and `y = Math.floor(ry * CANVAS_HEIGHT)`
from the two `Math.random()` draws, draws `lineTo(x, y)` + `stroke()`, and
appends `[x, y]` to the stroke history. -/
def runDrawRandomly (env : Surface) (rx ry : ℚ) (s : HomeState) :
    List DrawCmd × HomeState :=
  match env with
  | Surface.missingCanvas => ([], s)
  | Surface.missingContext => ([], s)
  | Surface.ready =>
      ([DrawCmd.lineTo ((⌊rx * CANVAS_WIDTH⌋ : ℚ), (⌊ry * CANVAS_HEIGHT⌋ : ℚ)),
        DrawCmd.strokePath],
       { s with strokeHistory :=
           s.strokeHistory ++ [((⌊rx * CANVAS_WIDTH⌋ : ℚ), (⌊ry * CANVAS_HEIGHT⌋ : ℚ))] })

/-- C2: Undo on a history of length N ≥ 1 yields exactly the old history with
its last element removed (length N − 1, the prefix intact); undo on an empty
history leaves it empty, with no error and no other state change (the offset
is untouched in every case). -/
theorem undoStroke_history (s : HomeState) :
    (runUndoStroke Surface.ready s).2.strokeHistory = s.strokeHistory.dropLast
    ∧ (runUndoStroke Surface.ready s).2.perspective = s.perspective
    ∧ (∀ hne : s.strokeHistory ≠ [],
        (runUndoStroke Surface.ready s).2.strokeHistory.length
            = s.strokeHistory.length - 1
        ∧ (runUndoStroke Surface.ready s).2.strokeHistory
              ++ [s.strokeHistory.getLast hne] = s.strokeHistory)
    ∧ (s.strokeHistory = [] → (runUndoStroke Surface.ready s).2.strokeHistory = []) := by
  refine ⟨rfl, rfl, fun hne => ⟨?_, ?_⟩, fun hnil => ?_⟩
  · simp [runUndoStroke, List.length_dropLast]
  · simp [runUndoStroke, List.dropLast_append_getLast hne]
  · simp [runUndoStroke, hnil]

/-- Closed instance of `undoStroke_history`: Add(50,50), Add(100,120), Undo
leaves [(50,50)]; Undo on the empty history leaves it empty. -/
theorem undoStroke_history_witness :
    (runUndoStroke Surface.ready ⟨(0, 0), [(50, 50), (100, 120)]⟩).2.strokeHistory
        = [((50 : ℚ), (50 : ℚ))]
    ∧ (runUndoStroke Surface.ready ⟨(0, 0), []⟩).2.strokeHistory = [] := by
  constructor
  · have h := (undoStroke_history ⟨(0, 0), [(50, 50), (100, 120)]⟩).2.2.1
        (by simp)
    have h2 := (undoStroke_history ⟨(0, 0), [(50, 50), (100, 120)]⟩).1
    simpa using h2
  · exact (undoStroke_history ⟨(0, 0), []⟩).2.2.2 rfl

/-- C3: Clear-Canvas, applied to any state, empties the stroke history and
leaves both components of the offset exactly as they were. -/
theorem clearCanvas_spec (s : HomeState) :
    (runClearCanvas Surface.ready s).2.strokeHistory = []
    ∧ (runClearCanvas Surface.ready s).2.perspective.1 = s.perspective.1
    ∧ (runClearCanvas Surface.ready s).2.perspective.2 = s.perspective.2 := by
  exact ⟨rfl, rfl, rfl⟩

/-- C4: Set-Offset-Axis(X, v) replaces only the first component of the offset
with v, leaving the second unchanged; Set-Offset-Axis(Y, v) replaces only the
second, leaving the first unchanged. -/
theorem perspectiveChange_frame (env : Surface) (v : ℚ) (s : HomeState) :
    (runPerspectiveChange env "perspectiveX" v s).2.perspective
        = (v, s.perspective.2)
    ∧ (runPerspectiveChange env "perspectiveY" v s).2.perspective
        = (s.perspective.1, v)
    ∧ (runPerspectiveChange env "perspectiveX" v s).2.strokeHistory
        = s.strokeHistory
    ∧ (runPerspectiveChange env "perspectiveY" v s).2.strokeHistory
        = s.strokeHistory := by
  refine ⟨?_, ?_, rfl, rfl⟩
  · simp [runPerspectiveChange, handlePerspectiveChange]
  · simp [runPerspectiveChange, handlePerspectiveChange]

/-- C8: the imperative clear-and-redraw inside Undo produces exactly the
sequence of draw commands the reactive render effect would produce for the
post-undo state. -/
theorem undoStroke_refines_renderEffect (s : HomeState) :
    (runUndoStroke Surface.ready s).1
        = renderEffect (runUndoStroke Surface.ready s).2.perspective
            (runUndoStroke Surface.ready s).2.strokeHistory := by
  rfl

/-- One Add-Point operation: a pointer press on the canvas or a press of the
Random button. -/
inductive AddOp where
  | pointer (clientX clientY rectLeft rectTop : ℚ)
  | random (rx ry : ℚ)
deriving DecidableEq, Repr

/-- State change of one Add-Point operation, through the corresponding
handler with the surface available. -/
def applyAdd (op : AddOp) (s : HomeState) : HomeState :=
  match op with
  | AddOp.pointer cx cy rl rt => (runMouseDown Surface.ready cx cy rl rt s).2
  | AddOp.random rx ry => (runDrawRandomly Surface.ready rx ry s).2

/-- The point an Add-Point operation appends. -/
def addedPoint : AddOp → Point
  | AddOp.pointer cx cy rl rt => (cx - rl, cy - rt)
  | AddOp.random rx ry => ((⌊rx * CANVAS_WIDTH⌋ : ℚ), (⌊ry * CANVAS_HEIGHT⌋ : ℚ))

/-- A sequence of Add-Point operations applied in call order. -/
def applyAdds (ops : List AddOp) (s : HomeState) : HomeState :=
  ops.foldl (fun acc op => applyAdd op acc) s

lemma applyAdd_strokeHistory (op : AddOp) (s : HomeState) :
    (applyAdd op s).strokeHistory = s.strokeHistory ++ [addedPoint op] := by
  cases op <;> rfl

lemma applyAdd_perspective (op : AddOp) (s : HomeState) :
    (applyAdd op s).perspective = s.perspective := by
  cases op <;> rfl

/-- C5: after any sequence of N Add-Point operations (pointer or random) from
any starting state, the stroke history is the old history with the N new
points appended at the end in call order; in particular its length grew by
exactly N and the previously present points are unchanged. -/
theorem applyAdds_spec (s : HomeState) (ops : List AddOp) :
    (applyAdds ops s).strokeHistory = s.strokeHistory ++ ops.map addedPoint
    ∧ (applyAdds ops s).strokeHistory.length
        = s.strokeHistory.length + ops.length := by
  have key : ∀ (l : List AddOp) (t : HomeState),
      (applyAdds l t).strokeHistory = t.strokeHistory ++ l.map addedPoint := by
    intro l
    induction l with
    | nil => intro t; simp [applyAdds]
    | cons op rest ih =>
        intro t
        simp only [applyAdds, List.foldl_cons, List.map_cons]
        have h := ih (applyAdd op t)
        simp only [applyAdds] at h
        rw [h, applyAdd_strokeHistory]
        simp
  refine ⟨key ops s, ?_⟩
  rw [key ops s]
  simp

/-- C9: Add-Random-Point with draws rx, ry appends exactly the point
`(Math.floor(rx * CANVAS_WIDTH), Math.floor(ry * CANVAS_HEIGHT))` — both
coordinates integers — and, when the draws lie in [0, 1), the x coordinate
lies in [0, CANVAS_WIDTH) and the y coordinate in [0, CANVAS_HEIGHT). -/
theorem drawRandomly_spec (rx ry : ℚ) (s : HomeState)
    (hx0 : 0 ≤ rx) (hx1 : rx < 1) (hy0 : 0 ≤ ry) (hy1 : ry < 1) :
    (runDrawRandomly Surface.ready rx ry s).2.strokeHistory
        = s.strokeHistory
          ++ [(((⌊rx * CANVAS_WIDTH⌋ : ℤ) : ℚ), ((⌊ry * CANVAS_HEIGHT⌋ : ℤ) : ℚ))]
    ∧ 0 ≤ ⌊rx * CANVAS_WIDTH⌋ ∧ ⌊rx * CANVAS_WIDTH⌋ < 800
    ∧ 0 ≤ ⌊ry * CANVAS_HEIGHT⌋ ∧ ⌊ry * CANVAS_HEIGHT⌋ < 600 := by
  refine ⟨rfl, ?_, ?_, ?_, ?_⟩
  · exact Int.floor_nonneg.mpr (mul_nonneg hx0 (by norm_num [CANVAS_WIDTH]))
  · refine Int.floor_lt.mpr ?_
    have : rx * CANVAS_WIDTH < 1 * CANVAS_WIDTH :=
      mul_lt_mul_of_pos_right hx1 (by norm_num [CANVAS_WIDTH])
    simpa [CANVAS_WIDTH] using this
  · exact Int.floor_nonneg.mpr (mul_nonneg hy0 (by norm_num [CANVAS_HEIGHT]))
  · refine Int.floor_lt.mpr ?_
    have : ry * CANVAS_HEIGHT < 1 * CANVAS_HEIGHT :=
      mul_lt_mul_of_pos_right hy1 (by norm_num [CANVAS_HEIGHT])
    simpa [CANVAS_HEIGHT] using this

/-- Closed instance of `drawRandomly_spec` at rx = 1/2, ry = 1/3. -/
theorem drawRandomly_spec_witness :
    (runDrawRandomly Surface.ready (1 / 2) (1 / 3)
        (HomeState.mk (0, 0) [])).2.strokeHistory = [((400 : ℚ), (200 : ℚ))] := by
  have h := (drawRandomly_spec (1 / 2) (1 / 3) (HomeState.mk (0, 0) [])
      (by norm_num) (by norm_num) (by norm_num) (by norm_num)).1
  rw [h]
  norm_num [CANVAS_WIDTH, CANVAS_HEIGHT]

/-- The initial component state: `perspective = [0, 0]`,
`strokeHistory = []`. -/
def initialState : HomeState := HomeState.mk (0, 0) []

/-- Modelled from the spec: the two range controls declare `min="-200"` and
`max="200"` (lines 157-177 of src/pages/index.tsx); the browser-side range
control — not itself part of src — clamps any requested value into that
interval before the change event fires, so the handler only ever receives
clamped values. -/
def sliderClamp (v : ℚ) : ℚ := max (-200) (min 200 v)

/-- Any user event on the Drawing Page. A `setAxis` event reaches the handler
through a range control, so its value passes through `sliderClamp`. -/
inductive Op where
  | setAxis (name : String) (value : ℚ)
  | pointerDown (clientX clientY rectLeft rectTop : ℚ)
  | randomDraw (rx ry : ℚ)
  | undo
  | clear
  | save (r : ℚ)
deriving DecidableEq, Repr

/-- State change of one user event under a given surface availability. -/
def stepOp (env : Surface) (op : Op) (s : HomeState) : HomeState :=
  match op with
  | Op.setAxis name v => (runPerspectiveChange env name (sliderClamp v) s).2
  | Op.pointerDown cx cy rl rt => (runMouseDown env cx cy rl rt s).2
  | Op.randomDraw rx ry => (runDrawRandomly env rx ry s).2
  | Op.undo => (runUndoStroke env s).2
  | Op.clear => (runClearCanvas env s).2
  | Op.save r => (runSaveImage env r s).2

/-- The state after a sequence of user events (each with its own surface
availability), starting from the initial state. -/
def runOps (evs : List (Surface × Op)) : HomeState :=
  evs.foldl (fun s ev => stepOp ev.1 ev.2 s) initialState

/-- Each offset component lies in [-200, 200]. -/
def offsetInBounds (s : HomeState) : Prop :=
  -200 ≤ s.perspective.1 ∧ s.perspective.1 ≤ 200
    ∧ -200 ≤ s.perspective.2 ∧ s.perspective.2 ≤ 200

lemma sliderClamp_mem (v : ℚ) : -200 ≤ sliderClamp v ∧ sliderClamp v ≤ 200 :=
  ⟨le_max_left _ _, max_le (by norm_num) (min_le_left _ _)⟩

lemma stepOp_offsetInBounds (env : Surface) (op : Op) (s : HomeState)
    (hs : offsetInBounds s) : offsetInBounds (stepOp env op s) := by
  cases op with
  | setAxis name v =>
      by_cases hname : name = "perspectiveX" <;>
        cases env <;>
        simp only [stepOp, runPerspectiveChange, handlePerspectiveChange,
          offsetInBounds, hname, if_true, if_false, ite_true, ite_false,
          reduceIte] <;>
        first
          | exact ⟨(sliderClamp_mem v).1, (sliderClamp_mem v).2,
              hs.2.2.1, hs.2.2.2⟩
          | exact ⟨hs.1, hs.2.1, (sliderClamp_mem v).1, (sliderClamp_mem v).2⟩
  | pointerDown cx cy rl rt => cases env <;> exact hs
  | randomDraw rx ry => cases env <;> exact hs
  | undo => cases env <;> exact hs
  | clear => cases env <;> exact hs
  | save r => cases env <;> exact hs

/-- C6: in every reachable state each offset component lies in [-200, 200];
the control layer clamps an out-of-range request such as 250 down to 200
before it reaches the state, while the boundary value 200 passes through
unchanged. -/
theorem offset_reachable_bounds (evs : List (Surface × Op)) :
    offsetInBounds (runOps evs)
    ∧ sliderClamp 250 = 200 ∧ sliderClamp 200 = 200 := by
  refine ⟨?_, by norm_num [sliderClamp], by norm_num [sliderClamp]⟩
  have key : ∀ (l : List (Surface × Op)) (t : HomeState), offsetInBounds t →
      offsetInBounds (l.foldl (fun s ev => stepOp ev.1 ev.2 s) t) := by
    intro l
    induction l with
    | nil => intro t ht; exact ht
    | cons ev rest ih =>
        intro t ht
        exact ih _ (stepOp_offsetInBounds ev.1 ev.2 t ht)
  exact key evs initialState (by norm_num [offsetInBounds, initialState])

/-- C7 as stated is false: `handlePerspectiveChange` performs no canvas or
context check, so Set-Offset-Axis mutates the offset even with the surface
missing — here X := 5 from the initial state with no canvas. -/
theorem perspectiveChange_missing_surface_cex :
    (runPerspectiveChange Surface.missingCanvas "perspectiveX" 5
        initialState).2 ≠ initialState := by
  intro h
  have h5 : ((5 : ℚ), (0 : ℚ)) = ((0 : ℚ), (0 : ℚ)) := by
    simpa [runPerspectiveChange, handlePerspectiveChange, initialState]
      using congrArg HomeState.perspective h
  exact absurd (congrArg Prod.fst h5) (by norm_num)

/-- C7 amended: with the canvas or its context missing, Add-Point (pointer
and random), Undo and Clear mutate nothing and issue no draw commands; Export
triggers nothing when the canvas is missing and never mutates the state;
Set-Offset-Axis issues no draw commands but — having no guard — still updates
the offset exactly as it would with the surface present. -/
theorem ops_noop_missing_surface (env : Surface) (name : String)
    (v cx cy rl rt rx ry r : ℚ) (s : HomeState) (henv : env ≠ Surface.ready) :
    runMouseDown env cx cy rl rt s = ([], s)
    ∧ runDrawRandomly env rx ry s = ([], s)
    ∧ runUndoStroke env s = ([], s)
    ∧ runClearCanvas env s = ([], s)
    ∧ runSaveImage Surface.missingCanvas r s = (none, s)
    ∧ (runSaveImage env r s).2 = s
    ∧ (runPerspectiveChange env name v s).1 = []
    ∧ (runPerspectiveChange env name v s).2.perspective
        = handlePerspectiveChange name v s.perspective := by
  cases env with
  | ready => exact absurd rfl henv
  | missingCanvas => exact ⟨rfl, rfl, rfl, rfl, rfl, rfl, rfl, rfl⟩
  | missingContext => exact ⟨rfl, rfl, rfl, rfl, rfl, rfl, rfl, rfl⟩

/-- Closed instance of `ops_noop_missing_surface` with the canvas missing. -/
theorem ops_noop_missing_surface_witness :
    runUndoStroke Surface.missingCanvas initialState = ([], initialState) :=
  (ops_noop_missing_surface Surface.missingCanvas "perspectiveX"
      0 0 0 0 0 0 0 0 initialState (by simp)).2.2.1

/-- C10: Export-Image never mutates the component state: for every surface
availability, random draw and state, offset and stroke history are identical
before and after. -/
theorem saveImage_preserves_state (env : Surface) (rand : ℚ) (s : HomeState) :
    (runSaveImage env rand s).2 = s := by
  cases env <;> rfl

end TwoDPerspective
